import Mathlib

/-!
# Telemetry-Node-SDK: `telemetryNode.h`

A shallow embedding of the telemetry node header and of the protocol core it
declares, followed by the properties checked against it.

* Section 1 embeds what the header defines with a body: the `Packet` record,
  the `DeviceID` and `ReciveState` enumerations, the protocol constants, the
  `TelemetryNode` constructor, the four inline getters and the six device
  adapter classes.
* Section 2 models the member functions the header only declares (`pack`,
  `unpack`, `connect`, `checkHeartbeat`, `update` and the packet-set
  bookkeeping) from the written specification.

Bytes (`uint8_t`) are natural numbers below 256; arithmetic that can leave the
byte range is reduced `% 256` explicitly.
-/

namespace TelemetryNodeSDK

/-! ## 1. Definitions taken from the header -/

/-- The wire frame record `struct Packet`: start byte, thirteen payload bytes,
sequence number, checksum. -/
structure Packet where
  startByte : Nat
  data : List Nat
  packetNum : Nat
  checksum : Nat
deriving DecidableEq, Repr

/-- The board enumeration `enum DeviceID`. -/
inductive DeviceID where
  | DEVICE_ALLTRAX
  | DEVICE_VESC
  | DEVICE_MOTOR_BOARD
  | DEVICE_BATTERY_BOARD
  | DEVICE_GPS_IMU
  | DEVICE_THROTTLE
  | DEVICE_SOLAR
deriving DecidableEq, Repr

/-- Numeric value of an enumerator: C++ numbers them 0, 1, 2, ... in
declaration order. -/
def DeviceID.toNat : DeviceID → Nat
  | .DEVICE_ALLTRAX => 0
  | .DEVICE_VESC => 1
  | .DEVICE_MOTOR_BOARD => 2
  | .DEVICE_BATTERY_BOARD => 3
  | .DEVICE_GPS_IMU => 4
  | .DEVICE_THROTTLE => 5
  | .DEVICE_SOLAR => 6

/-- The seven enumerators, in declaration order. -/
def DeviceID.all : List DeviceID :=
  [.DEVICE_ALLTRAX, .DEVICE_VESC, .DEVICE_MOTOR_BOARD, .DEVICE_BATTERY_BOARD,
   .DEVICE_GPS_IMU, .DEVICE_THROTTLE, .DEVICE_SOLAR]

/-- The receive sub-state `enum ReciveState`. -/
inductive ReciveState where
  | HEARTBEAT_WAITING
  | HEARTBEAT_RECEIVING
deriving DecidableEq, Repr

/-- Control code `TelemetryNode::CONN_INIT`. -/
def CONN_INIT : Nat := 0x69

/-- Control code `TelemetryNode::CONN_RESPONSE`. -/
def CONN_RESPONSE : Nat := 0x68

/-- Control code `TelemetryNode::CONN_CONFIRM`. -/
def CONN_CONFIRM : Nat := 0x67

/-- Control code `TelemetryNode::CONN_HEARTBEAT`. -/
def CONN_HEARTBEAT : Nat := 0x50

/-- The four control codes. -/
def controlCodes : List Nat := [CONN_INIT, CONN_RESPONSE, CONN_CONFIRM, CONN_HEARTBEAT]

/-- The data members of `class TelemetryNode`. The serial port pointer
`_serial` is kept as an opaque handle number. -/
structure TelemetryNode where
  deviceID : Nat
  numPackets : Nat
  serial : Nat
  connected : Bool
  lastHeartbeat : Nat
  hbPacketTimeout : Nat
  rState : ReciveState
  currentPack : List Packet
  hbPacket : List Nat
deriving DecidableEq, Repr

/-- The private member `setPacketNum(uint8_t id)`, whose body is not in the
header: it stores the packet count of device `id` in `numPackets`. The
device-to-count table `table` is the missing part and is a parameter; the
member is a `uint8_t`, so the stored value is reduced to a byte. -/
def setPacketNum (table : Nat → Nat) (n : TelemetryNode) (id : Nat) : TelemetryNode :=
  { n with numPackets := table id % 256 }

/-- The constructor `TelemetryNode(uint8_t deviceID, Serial_ *serialPort)`.

`raw` is the content of the object's storage before construction: the
constructor assigns `deviceID` and `_serial` in its initialiser list, calls
`setPacketNum(deviceID)`, allocates `currentPack` and `hbPacket` and sets
`rState`; every member it does not assign (`connected`, `lastHeartbeat`,
`hbPacketTimeout`) keeps whatever `raw` holds. `heapPacket` and `heapByte`
give the content of the freshly allocated arrays, which `new` does not
initialise either. -/
def TelemetryNode.construct (table : Nat → Nat) (raw : TelemetryNode)
    (heapPacket : Nat → Packet) (heapByte : Nat → Nat)
    (deviceID serialPort : Nat) : TelemetryNode :=
  let n0 : TelemetryNode := { raw with deviceID := deviceID % 256, serial := serialPort }
  let n1 := setPacketNum table n0 (deviceID % 256)
  let n2 : TelemetryNode := { n1 with currentPack := (List.range n1.numPackets).map heapPacket }
  let n3 : TelemetryNode := { n2 with hbPacket := (List.range 16).map heapByte }
  { n3 with rState := ReciveState.HEARTBEAT_WAITING }

/-- The getter `uint8_t getDeviceID() const`: the value returned and the node
afterwards. -/
def getDeviceID (n : TelemetryNode) : Nat × TelemetryNode := (n.deviceID, n)

/-- The getter `uint8_t getNumPackets() const`. -/
def getNumPackets (n : TelemetryNode) : Nat × TelemetryNode := (n.numPackets, n)

/-- The getter `Packet* getPackets()`: the frame storage. -/
def getPackets (n : TelemetryNode) : List Packet × TelemetryNode := (n.currentPack, n)

/-- The getter `bool isConnected()`. -/
def isConnected (n : TelemetryNode) : Bool × TelemetryNode := (n.connected, n)

/-- The six device adapter classes declared after `TelemetryNode`. -/
inductive AdapterClass where
  | AlltraxNode
  | VescNode
  | MotorBoardNode
  | GPSIMUNode
  | ThrottleNode
  | SolarNode
deriving DecidableEq, Repr

/-- The six adapter classes, in declaration order. -/
def AdapterClass.all : List AdapterClass :=
  [.AlltraxNode, .VescNode, .MotorBoardNode, .GPSIMUNode, .ThrottleNode, .SolarNode]

/-- The private constant `PACKET_START` of each adapter class. -/
def AdapterClass.PACKET_START : AdapterClass → Nat
  | .AlltraxNode => 0xF0
  | .VescNode => 0xF0
  | .MotorBoardNode => 0xF0
  | .GPSIMUNode => 0xF0
  | .ThrottleNode => 0xF0
  | .SolarNode => 0xF0

/-- The enumerator each adapter constructor hands to the `TelemetryNode`
constructor in its initialiser list. -/
def AdapterClass.deviceTag : AdapterClass → DeviceID
  | .AlltraxNode => .DEVICE_ALLTRAX
  | .VescNode => .DEVICE_VESC
  | .MotorBoardNode => .DEVICE_MOTOR_BOARD
  | .GPSIMUNode => .DEVICE_GPS_IMU
  | .ThrottleNode => .DEVICE_THROTTLE
  | .SolarNode => .DEVICE_SOLAR

/-- The adapter constructors `AlltraxNode(Serial_*)`, ..., `SolarNode(Serial_*)`:
each only runs `TelemetryNode(DEVICE_..., serialPort)`; the result is the
`TelemetryNode` base object. `SolarNode` is declared with itself as base
class, but its initialiser list names `TelemetryNode` like the other five. -/
def AdapterClass.construct (c : AdapterClass) (table : Nat → Nat) (raw : TelemetryNode)
    (heapPacket : Nat → Packet) (heapByte : Nat → Nat) (serialPort : Nat) : TelemetryNode :=
  TelemetryNode.construct table raw heapPacket heapByte c.deviceTag.toNat serialPort

/-- An all-zero frame. -/
def Packet.zero : Packet := ⟨0, List.replicate 13 0, 0, 0⟩

/-- Object storage that is all zero bytes, as for an object of static storage
duration before its constructor runs. -/
def zeroStorage : TelemetryNode :=
  { deviceID := 0, numPackets := 0, serial := 0, connected := false, lastHeartbeat := 0,
    hbPacketTimeout := 0, rState := ReciveState.HEARTBEAT_WAITING, currentPack := [],
    hbPacket := [] }

/-- Object storage whose byte at `connected` is non-zero, as can be found on
the stack or the heap. -/
def dirtyStorage : TelemetryNode :=
  { zeroStorage with connected := true, lastHeartbeat := 0xDEADBEEF }

/-! ## 2. The protocol core, modelled from the specification

The header declares `pack`, `unpack`, `connect`, `checkHeartbeat`, `sendData`
and `update` without bodies. The definitions below follow the written
specification of the frame codec, the packet assembler, the connection
handshake and the heartbeat engine. -/

/-- Modelled from the spec: the checksum design, which the bodies of `pack`
and `unpack` would fix. The specification allows a byte sum modulo 256 or a
byte-wise exclusive or, applied consistently. -/
inductive ChecksumKind where
  | sum
  | xor
deriving DecidableEq, Repr

/-- Modelled from the spec: the checksum computed by the missing bodies of
`pack` and `unpack`, one byte combining the start byte, the thirteen payload
bytes and the sequence byte. -/
def checksumOf (k : ChecksumKind) (start : Nat) (payload : List Nat) (seq : Nat) : Nat :=
  match k with
  | .sum => (start + payload.sum + seq) % 256
  | .xor => (Nat.xor (payload.foldl Nat.xor start) seq) % 256

/-- Modelled from the spec: `encode(payload, seq, start) -> Frame`, the missing
body of `pack`; deterministic and pure. -/
def encode (k : ChecksumKind) (payload : List Nat) (seq start : Nat) : Packet :=
  { startByte := start, data := payload, packetNum := seq,
    checksum := checksumOf k start payload seq }

/-- The sixteen wire bytes of a frame, in the member order of `struct Packet`:
offset 0 start byte, 1..13 payload, 14 sequence number, 15 checksum. -/
def Packet.toBytes (p : Packet) : List Nat :=
  p.startByte :: (p.data ++ [p.packetNum, p.checksum])

/-- The frame read back from sixteen wire bytes by the same layout. -/
def Packet.ofBytes (bytes : List Nat) : Packet :=
  { startByte := bytes.getD 0 0, data := (bytes.drop 1).take 13,
    packetNum := bytes.getD 14 0, checksum := bytes.getD 15 0 }

/-- The two ways a received frame is refused. -/
inductive DecodeError where
  | ChecksumError
  | StartByteError
deriving DecidableEq, Repr

/-- Modelled from the spec: `decode(bytes, expected_start)`, the missing body
of `unpack`: the frame is valid only if the start byte is the expected marker
and the recomputed checksum matches the received one. -/
def decode (k : ChecksumKind) (bytes : List Nat) (expectedStart : Nat) :
    Except DecodeError Packet :=
  let p := Packet.ofBytes bytes
  if p.startByte ≠ expectedStart then Except.error DecodeError.StartByteError
  else if p.checksum ≠ checksumOf k p.startByte p.data p.packetNum then
    Except.error DecodeError.ChecksumError
  else Except.ok p

/-- Modelled from the spec: the packet assembler, which the header only hints
at through `numPackets` and `currentPack`: `n` frame slots indexed by sequence
number, each empty until written. -/
structure Assembler where
  n : Nat
  slots : List (Option Packet)
deriving DecidableEq, Repr

/-- Modelled from the spec: `reset()` clears all `n` slots. -/
def Assembler.reset (n : Nat) : Assembler :=
  { n := n, slots := List.replicate n none }

/-- Modelled from the spec: `ingest(frame)` stores the frame at slot
`frame.sequence_number mod N`, overwriting what was there. -/
def Assembler.ingest (a : Assembler) (f : Packet) : Assembler :=
  { a with slots := a.slots.set (f.packetNum % a.n) (some f) }

/-- Modelled from the spec: `is_complete()` is true iff every slot has been
written since the last reset. -/
def Assembler.isComplete (a : Assembler) : Bool :=
  a.slots.all Option.isSome

/-- Modelled from the spec: `snapshot()` returns the slots in sequence order;
a slot not yet written reads as an all-zero frame. -/
def Assembler.snapshot (a : Assembler) : List Packet :=
  a.slots.map (fun s => s.getD Packet.zero)

/-- Ingest a list of frames, first to last. -/
def Assembler.ingestAll (a : Assembler) (fs : List Packet) : Assembler :=
  fs.foldl Assembler.ingest a

/-- Modelled from the spec: the connection state. -/
inductive ConnState where
  | Disconnected
  | Handshaking
  | Connected
deriving DecidableEq, Repr

/-- Modelled from the spec: the state of the protocol core behind `connect`,
`checkHeartbeat` and `update`. `start` and `kind` are the device's start
marker and the checksum design; `responded` records that `RESPONSE` has been
seen in the handshake under way. -/
structure Core where
  start : Nat
  kind : ChecksumKind
  conn : ConnState
  responded : Bool
  lastHeartbeat : Nat
  heartbeatTimeout : Nat
  rState : ReciveState
  hbBuffer : List Nat
  asm : Assembler
deriving DecidableEq, Repr

/-- The answer of `is_connected()` for the core. -/
def Core.isConnected (c : Core) : Bool :=
  decide (c.conn = ConnState.Connected)

/-- Modelled from the spec: the handshake state machine, the missing body of
`connect`, advanced by one control byte sent or received.
`INIT` opens a handshake from `Disconnected`, and from `Connected` it is a
peer reset that also discards the packet set; `RESPONSE` is recorded while
`Handshaking`; `CONFIRM` after `RESPONSE` completes the handshake. Any other
control byte is absorbed. -/
def Core.handshake (c : Core) (b : Nat) : Core :=
  if b = CONN_INIT then
    match c.conn with
    | ConnState.Disconnected => { c with conn := ConnState.Handshaking, responded := false }
    | ConnState.Handshaking => c
    | ConnState.Connected =>
      { c with conn := ConnState.Handshaking, responded := false,
               asm := Assembler.reset c.asm.n }
  else if b = CONN_RESPONSE then
    match c.conn with
    | ConnState.Handshaking => { c with responded := true }
    | _ => c
  else if b = CONN_CONFIRM then
    match c.conn, c.responded with
    | ConnState.Handshaking, true => { c with conn := ConnState.Connected }
    | _, _ => c
  else c

/-- Modelled from the spec: what the core does with one inbound 16-byte unit
at time `now`. A handshake code goes to the handshake machine; a `HEARTBEAT`
while `Connected` refreshes the liveness clock and its following bytes fill
the heartbeat buffer; anything else is decoded as a telemetry frame, and a
valid frame is ingested and, while `Connected`, counts as a liveness signal.
A unit that fails to decode is dropped. -/
def Core.receive (now : Nat) (c : Core) (u : List Nat) : Core :=
  let b := u.getD 0 0
  if b = CONN_INIT ∨ b = CONN_RESPONSE ∨ b = CONN_CONFIRM then c.handshake b
  else if b = CONN_HEARTBEAT then
    if c.conn = ConnState.Connected then
      { c with lastHeartbeat := now, rState := ReciveState.HEARTBEAT_WAITING,
               hbBuffer := (u.drop 1).take 16 }
    else c
  else
    match decode c.kind u c.start with
    | Except.ok f =>
      { c with asm := c.asm.ingest f,
               lastHeartbeat := if c.conn = ConnState.Connected then now else c.lastHeartbeat }
    | Except.error _ => c

/-- Modelled from the spec: the missing body of `checkHeartbeat`. While
`Connected`, silence longer than the timeout since the last liveness signal
loses the connection and discards the packet set. -/
def Core.checkHeartbeat (now : Nat) (c : Core) : Core :=
  if c.conn = ConnState.Connected ∧ c.heartbeatTimeout < now - c.lastHeartbeat then
    { c with conn := ConnState.Disconnected, asm := Assembler.reset c.asm.n }
  else c

/-- Modelled from the spec: the missing body of `update`, one tick at time
`now`: drain the inbound units, then check the heartbeat timeout. (Emission of
a completed packet set does not change the state modelled here.) -/
def Core.update (now : Nat) (inbound : List (List Nat)) (c : Core) : Core :=
  Core.checkHeartbeat now (inbound.foldl (Core.receive now) c)

/-- An inbound unit carries a liveness signal for core `c` when it is a
heartbeat or a valid telemetry frame. -/
def Core.isLiveness (c : Core) (u : List Nat) : Bool :=
  decide (u.getD 0 0 = CONN_HEARTBEAT) ||
    (match decode c.kind u c.start with
     | Except.ok _ => true
     | Except.error _ => false)

/-- A core as the handshake leaves it when it has just completed, with the
liveness clock at `last` and timeout `T`. -/
def Core.connectedAt (start : Nat) (k : ChecksumKind) (n last T : Nat) : Core :=
  { start := start, kind := k, conn := ConnState.Connected, responded := true,
    lastHeartbeat := last, heartbeatTimeout := T,
    rState := ReciveState.HEARTBEAT_WAITING, hbBuffer := [], asm := Assembler.reset n }

/-- A core before any handshake. -/
def Core.fresh (start : Nat) (k : ChecksumKind) (n T : Nat) : Core :=
  { start := start, kind := k, conn := ConnState.Disconnected, responded := false,
    lastHeartbeat := 0, heartbeatTimeout := T,
    rState := ReciveState.HEARTBEAT_WAITING, hbBuffer := [], asm := Assembler.reset n }

/-- A sample device-to-count table: three frames per packet set, as in the
end-to-end scenario of the specification. -/
def sampleTable : Nat → Nat := fun _ => 3

/-- A sample 13-byte payload. -/
def samplePayload : List Nat := [1, 2, 3, 4, 5, 6, 7, 8, 9, 10, 11, 12, 13]

/-- The valid frame with sequence number `seq` for start marker `0xF0`, sum
checksum, carrying the sample payload. -/
def sampleFrame (seq : Nat) : Packet := encode ChecksumKind.sum samplePayload seq 0xF0

/-- Three frames of a packet set of size 3, in the scrambled order 2, 0, 1. -/
def scrambledFrames : List Packet := [sampleFrame 2, sampleFrame 0, sampleFrame 1]

/-- The wire bytes of a frame whose checksum byte has been overwritten. -/
def corruptUnit : List Nat := (sampleFrame 1).toBytes.set 15 0

/-! ## 3. Lemmas about the constructor -/

theorem construct_deviceID (table : Nat → Nat) (raw : TelemetryNode)
    (heapPacket : Nat → Packet) (heapByte : Nat → Nat) (id port : Nat) :
    (TelemetryNode.construct table raw heapPacket heapByte id port).deviceID = id % 256 := rfl

theorem construct_numPackets (table : Nat → Nat) (raw : TelemetryNode)
    (heapPacket : Nat → Packet) (heapByte : Nat → Nat) (id port : Nat) :
    (TelemetryNode.construct table raw heapPacket heapByte id port).numPackets
      = table (id % 256) % 256 := rfl

theorem construct_currentPack (table : Nat → Nat) (raw : TelemetryNode)
    (heapPacket : Nat → Packet) (heapByte : Nat → Nat) (id port : Nat) :
    (TelemetryNode.construct table raw heapPacket heapByte id port).currentPack
      = (List.range (table (id % 256) % 256)).map heapPacket := rfl

theorem construct_connected (table : Nat → Nat) (raw : TelemetryNode)
    (heapPacket : Nat → Packet) (heapByte : Nat → Nat) (id port : Nat) :
    (TelemetryNode.construct table raw heapPacket heapByte id port).connected
      = raw.connected := rfl

theorem DeviceID.toNat_le (d : DeviceID) : d.toNat ≤ 6 := by
  cases d <;> decide

theorem DeviceID.exists_of_le {n : Nat} (h : n ≤ 6) : ∃ d : DeviceID, n = d.toNat := by
  interval_cases n
  · exact ⟨.DEVICE_ALLTRAX, rfl⟩
  · exact ⟨.DEVICE_VESC, rfl⟩
  · exact ⟨.DEVICE_MOTOR_BOARD, rfl⟩
  · exact ⟨.DEVICE_BATTERY_BOARD, rfl⟩
  · exact ⟨.DEVICE_GPS_IMU, rfl⟩
  · exact ⟨.DEVICE_THROTTLE, rfl⟩
  · exact ⟨.DEVICE_SOLAR, rfl⟩

/-! ## 4. Properties of the header -/

/-- C5: the constructor never assigns `connected`, so straight after it
`isConnected()` returns what the object's storage held before: built over
storage whose `connected` byte is set, an Alltrax node reports `true`. -/
theorem C5_isConnected_after_construct_dirty :
    (isConnected (TelemetryNode.construct sampleTable dirtyStorage (fun _ => Packet.zero)
      (fun _ => 0) DeviceID.DEVICE_ALLTRAX.toNat 0)).1 = true := rfl

/-- C6, as stated, fails: Alltrax and VESC are different device identities
with the same `PACKET_START`. -/
theorem C6_distinct_start_markers_fails :
    ¬ (∀ a b : AdapterClass, a.deviceTag ≠ b.deviceTag → a.PACKET_START ≠ b.PACKET_START) := by
  intro h
  exact h AdapterClass.AlltraxNode AdapterClass.VescNode (by decide) rfl

/-- C6, amended: the six device adapter classes have pairwise different device
identities and all share one start marker, `PACKET_START = 0xF0`. -/
theorem C6_start_marker_shared (a b : AdapterClass) :
    a.PACKET_START = 0xF0 ∧ a.PACKET_START = b.PACKET_START ∧
      (a.deviceTag = b.deviceTag ↔ a = b) := by
  cases a <;> cases b <;> decide

/-- C7: the control codes are `INIT = 0x69`, `RESPONSE = 0x68`,
`CONFIRM = 0x67`, `HEARTBEAT = 0x50`; they are pairwise distinct and none is
the `PACKET_START` of a device adapter class. -/
theorem C7_control_codes_distinct :
    controlCodes = [0x69, 0x68, 0x67, 0x50] ∧ controlCodes.Nodup ∧
      ∀ a : AdapterClass, a.PACKET_START ∉ controlCodes := by
  refine ⟨rfl, by decide, ?_⟩
  intro a
  cases a <;> decide

/-- C8: a node built by `TelemetryNode(id, port)` with `id` a byte reports
`getDeviceID() == id`; each adapter constructor yields its own board tag; and
the four getters hand back the node as it was, identity included. -/
theorem C8_device_identity_fixed (table : Nat → Nat) (raw : TelemetryNode)
    (heapPacket : Nat → Packet) (heapByte : Nat → Nat) (id port : Nat) (hid : id < 256) :
    (getDeviceID (TelemetryNode.construct table raw heapPacket heapByte id port)).1 = id ∧
    (getDeviceID (AdapterClass.AlltraxNode.construct table raw heapPacket heapByte port)).1
      = DeviceID.DEVICE_ALLTRAX.toNat ∧
    (getDeviceID (AdapterClass.VescNode.construct table raw heapPacket heapByte port)).1
      = DeviceID.DEVICE_VESC.toNat ∧
    (getDeviceID (AdapterClass.MotorBoardNode.construct table raw heapPacket heapByte port)).1
      = DeviceID.DEVICE_MOTOR_BOARD.toNat ∧
    (getDeviceID (AdapterClass.GPSIMUNode.construct table raw heapPacket heapByte port)).1
      = DeviceID.DEVICE_GPS_IMU.toNat ∧
    (getDeviceID (AdapterClass.ThrottleNode.construct table raw heapPacket heapByte port)).1
      = DeviceID.DEVICE_THROTTLE.toNat ∧
    (getDeviceID (AdapterClass.SolarNode.construct table raw heapPacket heapByte port)).1
      = DeviceID.DEVICE_SOLAR.toNat ∧
    (∀ n : TelemetryNode,
      (getDeviceID n).2.deviceID = n.deviceID ∧ (getNumPackets n).2.deviceID = n.deviceID ∧
      (getPackets n).2.deviceID = n.deviceID ∧ (isConnected n).2.deviceID = n.deviceID ∧
      (getDeviceID (getDeviceID n).2).1 = (getDeviceID n).1) := by
  refine ⟨?_, rfl, rfl, rfl, rfl, rfl, rfl, fun n => ⟨rfl, rfl, rfl, rfl, rfl⟩⟩
  show id % 256 = id
  exact Nat.mod_eq_of_lt hid

theorem C8_device_identity_fixed_witness :
    (42 : Nat) < 256 ∧
    (getDeviceID (TelemetryNode.construct sampleTable dirtyStorage (fun _ => Packet.zero)
      (fun _ => 0) 42 1)).1 = 42 :=
  ⟨by decide, (C8_device_identity_fixed sampleTable dirtyStorage (fun _ => Packet.zero)
      (fun _ => 0) 42 1 (by decide)).1⟩

/-- C9, as stated, fails: the public constructor takes any byte, and
`TelemetryNode(7, port)` reports identity 7, which is no enumerator. -/
theorem C9_identity_outside_enumeration :
    (getDeviceID (TelemetryNode.construct sampleTable zeroStorage (fun _ => Packet.zero)
      (fun _ => 0) 7 0)).1 = 7 ∧ ¬ ∃ d : DeviceID, 7 = d.toNat := by
  refine ⟨rfl, ?_⟩
  rintro ⟨d, hd⟩
  cases d <;> exact absurd hd (by decide)

/-- C9, amended: the identity of a node built by `TelemetryNode(id, port)`, for
a byte `id`, is one of the seven enumerators exactly when `id` is (that is,
when `id ≤ 6`); every node built by a device adapter constructor has an
enumerated identity. -/
theorem C9_identity_enumerated_iff (table : Nat → Nat) (raw : TelemetryNode)
    (heapPacket : Nat → Packet) (heapByte : Nat → Nat) (id port : Nat) (hid : id < 256) :
    ((∃ d : DeviceID,
        (getDeviceID (TelemetryNode.construct table raw heapPacket heapByte id port)).1
          = d.toNat) ↔ id ≤ 6) ∧
    (∀ c : AdapterClass, ∃ d : DeviceID,
        (getDeviceID (c.construct table raw heapPacket heapByte port)).1 = d.toNat ∧
        d.toNat ≤ 6) := by
  have hval : (getDeviceID (TelemetryNode.construct table raw heapPacket heapByte id port)).1
      = id := by
    show id % 256 = id
    exact Nat.mod_eq_of_lt hid
  refine ⟨?_, ?_⟩
  · rw [hval]
    constructor
    · rintro ⟨d, hd⟩
      rw [hd]
      exact d.toNat_le
    · intro h
      exact DeviceID.exists_of_le h
  · intro c
    exact ⟨c.deviceTag, by cases c <;> rfl, c.deviceTag.toNat_le⟩

theorem C9_identity_enumerated_iff_witness :
    (5 : Nat) < 256 ∧
    ((∃ d : DeviceID,
        (getDeviceID (TelemetryNode.construct sampleTable zeroStorage (fun _ => Packet.zero)
          (fun _ => 0) 5 0)).1 = d.toNat) ↔ 5 ≤ 6) :=
  ⟨by decide, (C9_identity_enumerated_iff sampleTable zeroStorage (fun _ => Packet.zero)
      (fun _ => 0) 5 0 (by decide)).1⟩

theorem Packet.toBytes_length (p : Packet) : p.toBytes.length = p.data.length + 3 := by
  simp [Packet.toBytes]

theorem Packet.ofBytes_toBytes (p : Packet) (h : p.data.length = 13) :
    Packet.ofBytes p.toBytes = p := by
  obtain ⟨s, d, n, c⟩ := p
  simp only at h
  have h14 : (s :: (d ++ [n, c])).getD 14 0 = n := by
    simp [List.getD_eq_getElem?_getD, List.getElem?_cons]
    rw [List.getElem?_append_right (by omega)]
    simp [h]
  have h15 : (s :: (d ++ [n, c])).getD 15 0 = c := by
    simp [List.getD_eq_getElem?_getD, List.getElem?_cons]
    rw [List.getElem?_append_right (by omega)]
    simp [h]
  have hd : ((s :: (d ++ [n, c])).drop 1).take 13 = d := by
    simp [List.take_append_of_le_length, h]
  simp only [Packet.ofBytes, Packet.toBytes, h14, h15, hd]
  simp

theorem checksumOf_lt (k : ChecksumKind) (start : Nat) (payload : List Nat) (seq : Nat) :
    checksumOf k start payload seq < 256 := by
  cases k <;> exact Nat.mod_lt _ (by decide)

/-- C1: for every 13-byte payload `P`, sequence byte `S` and start byte, and
for either checksum design, the frame `encode(P, S, start)` is sixteen bytes on
the wire, and decoding those bytes with the same expected start byte succeeds
and returns the frame with payload exactly `P`, sequence number exactly `S` and
the checksum the decoder recomputes. -/
theorem C1_codec_round_trip (k : ChecksumKind) (P : List Nat) (S start : Nat)
    (hP : P.length = 13) (hbytes : ∀ b ∈ P, b < 256) (hS : S < 256) (hstart : start < 256) :
    (encode k P S start).toBytes.length = 16 ∧
    (∀ b ∈ (encode k P S start).toBytes, b < 256) ∧
    (∃ f : Packet, decode k (encode k P S start).toBytes start = Except.ok f ∧
      f.data = P ∧ f.packetNum = S ∧ f.startByte = start ∧
      f.checksum = checksumOf k f.startByte f.data f.packetNum) := by
  have hlen : (encode k P S start).data.length = 13 := hP
  refine ⟨by rw [Packet.toBytes_length, hlen], ?_, encode k P S start, ?_, rfl, rfl, rfl, rfl⟩
  · intro b hb
    simp only [Packet.toBytes, encode, List.mem_cons, List.mem_append, List.mem_singleton] at hb
    rcases hb with rfl | hb | rfl | rfl | hb
    · exact hstart
    · exact hbytes b hb
    · exact hS
    · exact checksumOf_lt k start P S
    · cases hb
  · unfold decode
    simp only [Packet.ofBytes_toBytes _ hlen]
    simp [encode]

theorem C1_codec_round_trip_witness :
    samplePayload.length = 13 ∧ (∀ b ∈ samplePayload, b < 256) ∧ (2 : Nat) < 256 ∧
    (0xF0 : Nat) < 256 ∧
    (∃ f : Packet,
      decode ChecksumKind.xor (encode ChecksumKind.xor samplePayload 2 0xF0).toBytes 0xF0
        = Except.ok f ∧
      f.data = samplePayload ∧ f.packetNum = 2 ∧ f.startByte = 0xF0 ∧
      f.checksum = checksumOf ChecksumKind.xor f.startByte f.data f.packetNum) :=
  ⟨by decide, by decide, by decide, by decide,
    (C1_codec_round_trip ChecksumKind.xor samplePayload 2 0xF0
      (by decide) (by decide) (by decide) (by decide)).2.2⟩

/-! ## 6. Handshake and heartbeat -/

theorem Core.handshake_fixed (c : Core) (b : Nat) :
    (c.handshake b).lastHeartbeat = c.lastHeartbeat ∧
    (c.handshake b).heartbeatTimeout = c.heartbeatTimeout ∧
    (c.handshake b).kind = c.kind ∧ (c.handshake b).start = c.start := by
  unfold Core.handshake
  split_ifs
  · cases c.conn <;> simp
  · cases c.conn <;> simp
  · cases c.conn <;> cases c.responded <;> simp
  · simp

theorem Core.handshake_not_disconnected (c : Core) (b : Nat)
    (h : c.conn ≠ ConnState.Disconnected) : (c.handshake b).conn ≠ ConnState.Disconnected := by
  unfold Core.handshake
  split_ifs
  · cases hc : c.conn <;> simp_all
  · cases hc : c.conn <;> simp_all
  · cases hc : c.conn <;> cases hr : c.responded <;> simp_all
  · exact h

theorem Core.handshake_stays_connected (c : Core) (b : Nat)
    (h : c.conn = ConnState.Connected) (hb : b ≠ CONN_INIT) :
    (c.handshake b).conn = ConnState.Connected := by
  unfold Core.handshake
  rw [if_neg hb]
  split_ifs
  · simp [h]
  · cases hr : c.responded <;> simp [h]
  · exact h

/-- What one inbound unit that is no liveness signal leaves in place. -/
theorem Core.receive_quiet (now : Nat) (c : Core) (u : List Nat)
    (hq : c.isLiveness u = false) :
    (c.receive now u).lastHeartbeat = c.lastHeartbeat ∧
    (c.receive now u).heartbeatTimeout = c.heartbeatTimeout ∧
    (c.receive now u).kind = c.kind ∧ (c.receive now u).start = c.start ∧
    (c.conn ≠ ConnState.Disconnected → (c.receive now u).conn ≠ ConnState.Disconnected) ∧
    (c.conn = ConnState.Connected → u.getD 0 0 ≠ CONN_INIT →
      (c.receive now u).conn = ConnState.Connected) := by
  unfold Core.isLiveness at hq
  rw [Bool.or_eq_false_iff] at hq
  obtain ⟨hhb, hdec⟩ := hq
  have hhb : u.getD 0 0 ≠ CONN_HEARTBEAT := by simpa using hhb
  unfold Core.receive
  simp only
  by_cases hctl : u.getD 0 0 = CONN_INIT ∨ u.getD 0 0 = CONN_RESPONSE ∨ u.getD 0 0 = CONN_CONFIRM
  · rw [if_pos hctl]
    obtain ⟨h1, h2, h3, h4⟩ := c.handshake_fixed (u.getD 0 0)
    exact ⟨h1, h2, h3, h4, c.handshake_not_disconnected _,
      fun hc hi => c.handshake_stays_connected _ hc hi⟩
  · rw [if_neg hctl, if_neg hhb]
    cases hd : decode c.kind u c.start with
    | ok f => rw [hd] at hdec; simp at hdec
    | error e => exact ⟨rfl, rfl, rfl, rfl, id, fun hc _ => hc⟩

/-- A run of inbound units without liveness signal leaves the liveness clock
where it was and never ends `Disconnected`. -/
theorem Core.drain_quiet (now : Nat) (inbound : List (List Nat)) (c : Core)
    (hq : ∀ u ∈ inbound, c.isLiveness u = false) :
    (inbound.foldl (Core.receive now) c).lastHeartbeat = c.lastHeartbeat ∧
    (inbound.foldl (Core.receive now) c).heartbeatTimeout = c.heartbeatTimeout ∧
    (c.conn ≠ ConnState.Disconnected →
      (inbound.foldl (Core.receive now) c).conn ≠ ConnState.Disconnected) ∧
    (c.conn = ConnState.Connected → (∀ u ∈ inbound, u.getD 0 0 ≠ CONN_INIT) →
      (inbound.foldl (Core.receive now) c).conn = ConnState.Connected) := by
  induction inbound generalizing c with
  | nil => exact ⟨rfl, rfl, id, fun h _ => h⟩
  | cons u rest ih =>
    obtain ⟨h1, h2, h3, h4, h5, h6⟩ := c.receive_quiet now u (hq u (List.mem_cons_self _ _))
    have hq2 : ∀ v ∈ rest, (c.receive now u).isLiveness v = false := by
      intro v hv
      have := hq v (List.mem_cons_of_mem _ hv)
      unfold Core.isLiveness at this ⊢
      rw [h3, h4]
      exact this
    obtain ⟨i1, i2, i3, i4⟩ := ih (c.receive now u) hq2
    rw [List.foldl_cons]
    refine ⟨i1.trans h1, i2.trans h2, fun hc => i3 (h5 hc), fun hc hi => ?_⟩
    exact i4 (h6 hc (hi u (List.mem_cons_self _ _)))
      (fun v hv => hi v (List.mem_cons_of_mem _ hv))

/-- C2: from a `Disconnected` core the control bytes `INIT` (0x69), `RESPONSE`
(0x68), `CONFIRM` (0x67) drive the state `Disconnected`, `Handshaking`,
`Handshaking`, `Connected`: `isConnected` is false before `CONFIRM` and true
after it. -/
theorem C2_handshake_sequence (c : Core) (h : c.conn = ConnState.Disconnected) :
    CONN_INIT = 0x69 ∧ CONN_RESPONSE = 0x68 ∧ CONN_CONFIRM = 0x67 ∧
    c.isConnected = false ∧
    (c.handshake CONN_INIT).conn = ConnState.Handshaking ∧
    (c.handshake CONN_INIT).isConnected = false ∧
    ((c.handshake CONN_INIT).handshake CONN_RESPONSE).conn = ConnState.Handshaking ∧
    ((c.handshake CONN_INIT).handshake CONN_RESPONSE).isConnected = false ∧
    (((c.handshake CONN_INIT).handshake CONN_RESPONSE).handshake CONN_CONFIRM).conn
      = ConnState.Connected ∧
    (((c.handshake CONN_INIT).handshake CONN_RESPONSE).handshake CONN_CONFIRM).isConnected
      = true := by
  have h1 : c.handshake CONN_INIT
      = { c with conn := ConnState.Handshaking, responded := false } := by
    simp [Core.handshake, h]
  have h2 : (c.handshake CONN_INIT).handshake CONN_RESPONSE
      = { c with conn := ConnState.Handshaking, responded := true } := by
    rw [h1]
    simp [Core.handshake, CONN_INIT, CONN_RESPONSE]
  have h3 : ((c.handshake CONN_INIT).handshake CONN_RESPONSE).handshake CONN_CONFIRM
      = { c with conn := ConnState.Connected, responded := true } := by
    rw [h2]
    simp [Core.handshake, CONN_INIT, CONN_RESPONSE, CONN_CONFIRM]
  rw [h3, h2, h1]
  simp [Core.isConnected, h, CONN_INIT, CONN_RESPONSE, CONN_CONFIRM]

theorem C2_handshake_sequence_witness :
    (Core.fresh 0xF0 ChecksumKind.sum 3 1000).conn = ConnState.Disconnected ∧
    ((((Core.fresh 0xF0 ChecksumKind.sum 3 1000).handshake CONN_INIT).handshake
      CONN_RESPONSE).handshake CONN_CONFIRM).isConnected = true :=
  ⟨rfl, (C2_handshake_sequence (Core.fresh 0xF0 ChecksumKind.sum 3 1000) rfl).2.2.2.2.2.2.2.2.2⟩

/-- C3: take a `Connected` core with timeout `T = heartbeatTimeout` and an
`update` at time `now` whose inbound units hold no heartbeat and no valid
frame. If more than `T` has elapsed since the last heartbeat, the core is not
connected after the update. If at most `T` has elapsed, the update does not
disconnect it: the state is not `Disconnected`, and unless the peer reset the
session with `INIT` the core is still connected with its liveness clock
untouched. -/
theorem C3_heartbeat_timeout (c : Core) (now : Nat) (inbound : List (List Nat))
    (hc : c.conn = ConnState.Connected)
    (hq : ∀ u ∈ inbound, c.isLiveness u = false) :
    (c.heartbeatTimeout < now - c.lastHeartbeat →
      (c.update now inbound).isConnected = false) ∧
    (now - c.lastHeartbeat ≤ c.heartbeatTimeout →
      (c.update now inbound).conn ≠ ConnState.Disconnected) ∧
    (now - c.lastHeartbeat ≤ c.heartbeatTimeout →
      (∀ u ∈ inbound, u.getD 0 0 ≠ CONN_INIT) →
      (c.update now inbound).isConnected = true ∧
      (c.update now inbound).lastHeartbeat = c.lastHeartbeat) := by
  obtain ⟨d1, d2, d3, d4⟩ := Core.drain_quiet now inbound c hq
  have hnd : c.conn ≠ ConnState.Disconnected := by rw [hc]; decide
  refine ⟨fun hlate => ?_, fun hin => ?_, fun hin hinit => ?_⟩
  · unfold Core.update Core.checkHeartbeat
    rw [d1, d2]
    by_cases hconn : (inbound.foldl (Core.receive now) c).conn = ConnState.Connected
    · rw [if_pos ⟨hconn, hlate⟩]
      simp [Core.isConnected]
    · rw [if_neg (fun h => hconn h.1)]
      simp [Core.isConnected, hconn]
  · unfold Core.update Core.checkHeartbeat
    rw [d1, d2, if_neg (fun h => absurd h.2 (Nat.not_lt.mpr hin))]
    exact d3 hnd
  · unfold Core.update Core.checkHeartbeat
    rw [d1, d2, if_neg (fun h => absurd h.2 (Nat.not_lt.mpr hin))]
    exact ⟨by simp [Core.isConnected, d4 hc hinit], d1⟩

theorem C3_heartbeat_timeout_witness :
    (Core.connectedAt 0xF0 ChecksumKind.sum 3 100 50).conn = ConnState.Connected ∧
    (∀ u ∈ [corruptUnit, [CONN_CONFIRM]],
      (Core.connectedAt 0xF0 ChecksumKind.sum 3 100 50).isLiveness u = false) ∧
    ((Core.connectedAt 0xF0 ChecksumKind.sum 3 100 50).update 151
      [corruptUnit, [CONN_CONFIRM]]).isConnected = false ∧
    ((Core.connectedAt 0xF0 ChecksumKind.sum 3 100 50).update 150
      [corruptUnit, [CONN_CONFIRM]]).isConnected = true :=
  ⟨rfl, by decide,
    (C3_heartbeat_timeout (Core.connectedAt 0xF0 ChecksumKind.sum 3 100 50) 151
      [corruptUnit, [CONN_CONFIRM]] rfl (by decide)).1 (by decide),
    ((C3_heartbeat_timeout (Core.connectedAt 0xF0 ChecksumKind.sum 3 100 50) 150
      [corruptUnit, [CONN_CONFIRM]] rfl (by decide)).2.2 (by decide) (by decide)).1⟩

/-! ## 7. Packet reassembly -/

theorem Assembler.ingestAll_n (a : Assembler) (fs : List Packet) :
    (a.ingestAll fs).n = a.n := by
  induction fs generalizing a with
  | nil => rfl
  | cons f rest ih => exact (ih (a.ingest f)).trans rfl

theorem Assembler.ingestAll_length (a : Assembler) (fs : List Packet) :
    (a.ingestAll fs).slots.length = a.slots.length := by
  induction fs generalizing a with
  | nil => rfl
  | cons f rest ih =>
    exact (ih (a.ingest f)).trans (by simp [Assembler.ingest])

/-- A frame found in a slot after ingestion was there before or was ingested
at the slot of its sequence number. -/
theorem Assembler.ingestAll_slot_origin (a : Assembler) (fs : List Packet) (i : Nat)
    (g : Packet) (h : (a.ingestAll fs).slots[i]? = some (some g)) :
    a.slots[i]? = some (some g) ∨ (g ∈ fs ∧ g.packetNum % a.n = i) := by
  induction fs generalizing a with
  | nil => exact Or.inl h
  | cons f rest ih =>
    have hn : (a.ingest f).n = a.n := rfl
    rcases ih (a.ingest f) h with h1 | ⟨h1, h2⟩
    · simp only [Assembler.ingest, List.getElem?_set] at h1
      split_ifs at h1 with he hlt
      · simp only [Option.some.injEq] at h1
        subst h1
        exact Or.inr ⟨List.mem_cons_self _ _, he⟩
      · exact Or.inl h1
    · exact Or.inr ⟨List.mem_cons_of_mem _ h1, by rw [← hn]; exact h2⟩

/-- A written slot stays written. -/
theorem Assembler.ingestAll_keeps_written (a : Assembler) (fs : List Packet) (i : Nat)
    (h : ∃ g, a.slots[i]? = some (some g)) :
    ∃ g, (a.ingestAll fs).slots[i]? = some (some g) := by
  induction fs generalizing a with
  | nil => exact h
  | cons f rest ih =>
    apply ih (a.ingest f)
    obtain ⟨g, hg⟩ := h
    have hi : i < a.slots.length := by
      by_contra hcon
      rw [List.getElem?_eq_none (Nat.le_of_not_lt hcon)] at hg
      cases hg
    simp only [Assembler.ingest, List.getElem?_set]
    split_ifs with he hlt
    · exact ⟨f, rfl⟩
    · exact absurd (he ▸ hi) hlt
    · exact ⟨g, hg⟩

/-- Ingesting a frame whose slot exists leaves that slot written. -/
theorem Assembler.ingestAll_writes (a : Assembler) (fs : List Packet) (f : Packet)
    (hf : f ∈ fs) (hi : f.packetNum % a.n < a.slots.length) :
    ∃ g, (a.ingestAll fs).slots[f.packetNum % a.n]? = some (some g) := by
  induction fs generalizing a with
  | nil => cases hf
  | cons f0 rest ih =>
    have hn : (a.ingest f0).n = a.n := rfl
    have hl : (a.ingest f0).slots.length = a.slots.length := by simp [Assembler.ingest]
    rcases List.mem_cons.mp hf with rfl | hmem
    · apply Assembler.ingestAll_keeps_written (a.ingest f) rest
      refine ⟨f, ?_⟩
      simp only [Assembler.ingest, List.getElem?_set]
      simp [hi]
    · have := ih (a.ingest f0) hmem (by rw [hn, hl]; exact hi)
      rw [hn] at this
      exact this

theorem Assembler.reset_slot (n i : Nat) (g : Packet) :
    (Assembler.reset n).slots[i]? ≠ some (some g) := by
  intro h
  simp only [Assembler.reset] at h
  by_cases hi : i < n
  · rw [List.getElem?_replicate_of_lt hi] at h
    cases h
  · rw [List.getElem?_eq_none (by simpa using Nat.le_of_not_lt hi)] at h
    cases h

theorem Assembler.isComplete_iff (a : Assembler) :
    a.isComplete = true ↔ ∀ i, i < a.slots.length → ∃ g, a.slots[i]? = some (some g) := by
  unfold Assembler.isComplete
  rw [List.all_eq_true]
  constructor
  · intro h i hi
    have hmem : a.slots[i] ∈ a.slots := List.getElem_mem hi
    have hs := h _ hmem
    obtain ⟨g, hg⟩ := Option.isSome_iff_exists.mp hs
    exact ⟨g, by rw [List.getElem?_eq_getElem hi, hg]⟩
  · intro h s hs
    obtain ⟨i, hi, rfl⟩ := List.getElem_of_mem hs
    obtain ⟨g, hg⟩ := h i hi
    rw [List.getElem?_eq_getElem hi] at hg
    simp only [Option.some.injEq] at hg
    rw [hg]
    rfl

/-- After a reset and the ingestion of frames whose sequence numbers are a
permutation of `0..N-1`, each frame sits in the slot of its sequence number. -/
theorem Assembler.ingestAll_perm_slot (N : Nat) (fs : List Packet)
    (hperm : (fs.map Packet.packetNum).Perm (List.range N)) (f : Packet) (hf : f ∈ fs) :
    ((Assembler.reset N).ingestAll fs).slots[f.packetNum]? = some (some f) := by
  have hlt : ∀ g ∈ fs, g.packetNum < N := by
    intro g hg
    have : g.packetNum ∈ List.range N := hperm.mem_iff.mp (List.mem_map_of_mem _ hg)
    exact List.mem_range.mp this
  have hnodup : (fs.map Packet.packetNum).Nodup := hperm.nodup_iff.mpr (List.nodup_range N)
  have hn : (Assembler.reset N).n = N := rfl
  have hl : (Assembler.reset N).slots.length = N := by simp [Assembler.reset]
  have hfl := hlt f hf
  obtain ⟨g, hg⟩ := Assembler.ingestAll_writes (Assembler.reset N) fs f hf
    (by rw [hn, hl]; exact Nat.mod_lt _ (by omega))
  rw [hn, Nat.mod_eq_of_lt hfl] at hg
  rcases Assembler.ingestAll_slot_origin _ fs _ g hg with h0 | ⟨hgm, hgi⟩
  · exact absurd h0 (Assembler.reset_slot N _ g)
  · rw [hn, Nat.mod_eq_of_lt (hlt g hgm)] at hgi
    have : g = f := List.inj_on_of_nodup_map hnodup hgm hf hgi
    rw [hg, this]

/-- C4: for every packet count `N ≥ 1`, after a reset, ingesting frames whose
sequence numbers are `0..N-1` in any order makes the set complete, and the
snapshot lists the frames in sequence order: its sequence numbers read
`0, 1, ..., N-1` and every ingested frame is found at the index of its sequence
number. Ingesting frames that carry only `N-1` distinct sequence numbers leaves
the set incomplete. -/
theorem C4_reassembly (N : Nat) (hN : 1 ≤ N) (fs : List Packet) :
    ((fs.map Packet.packetNum).Perm (List.range N) →
      ((Assembler.reset N).ingestAll fs).isComplete = true ∧
      (((Assembler.reset N).ingestAll fs).snapshot).map Packet.packetNum = List.range N ∧
      (∀ f ∈ fs, (((Assembler.reset N).ingestAll fs).snapshot)[f.packetNum]? = some f)) ∧
    ((fs.map Packet.packetNum).toFinset.card = N - 1 →
      ((Assembler.reset N).ingestAll fs).isComplete = false) := by
  have hn : ((Assembler.reset N).ingestAll fs).n = N := Assembler.ingestAll_n _ _
  have hl : ((Assembler.reset N).ingestAll fs).slots.length = N := by
    rw [Assembler.ingestAll_length]
    simp [Assembler.reset]
  constructor
  · intro hperm
    have hslot := Assembler.ingestAll_perm_slot N fs hperm
    have hat : ∀ i, i < N → ∃ f ∈ fs, f.packetNum = i ∧
        ((Assembler.reset N).ingestAll fs).slots[i]? = some (some f) := by
      intro i hi
      have : i ∈ fs.map Packet.packetNum := hperm.mem_iff.mpr (List.mem_range.mpr hi)
      obtain ⟨f, hf, rfl⟩ := List.mem_map.mp this
      exact ⟨f, hf, rfl, hslot f hf⟩
    refine ⟨?_, ?_, ?_⟩
    · rw [Assembler.isComplete_iff]
      intro i hi
      obtain ⟨f, _, _, h⟩ := hat i (by rw [← hl]; exact hi)
      exact ⟨f, h⟩
    · apply List.ext_getElem?
      intro i
      by_cases hi : i < N
      · obtain ⟨f, _, hfi, h⟩ := hat i hi
        simp [Assembler.snapshot, h, hfi, List.getElem?_range hi]
      · have hle : N ≤ i := Nat.le_of_not_lt hi
        rw [List.getElem?_eq_none (by simpa [Assembler.snapshot, hl] using hle),
          List.getElem?_eq_none (by simpa using hle)]
    · intro f hf
      simp [Assembler.snapshot, hslot f hf]
  · intro hcard
    by_contra hcomp
    have hcomp : ((Assembler.reset N).ingestAll fs).isComplete = true := by
      simpa using hcomp
    rw [Assembler.isComplete_iff] at hcomp
    have hsub : Finset.range N ⊆
        ((fs.map Packet.packetNum).toFinset).image (fun s => s % N) := by
      intro i hi
      have hi : i < N := Finset.mem_range.mp hi
      obtain ⟨g, hg⟩ := hcomp i (by rw [hl]; exact hi)
      rcases Assembler.ingestAll_slot_origin _ fs _ g hg with h0 | ⟨hgm, hgi⟩
      · exact absurd h0 (Assembler.reset_slot N _ g)
      · refine Finset.mem_image.mpr ⟨g.packetNum, ?_, hgi⟩
        exact List.mem_toFinset.mpr (List.mem_map_of_mem _ hgm)
    have h1 := Finset.card_le_card hsub
    have h2 : (((fs.map Packet.packetNum).toFinset).image (fun s => s % N)).card
        ≤ ((fs.map Packet.packetNum).toFinset).card := Finset.card_image_le
    rw [Finset.card_range] at h1
    omega

theorem C4_reassembly_witness :
    1 ≤ 3 ∧ (scrambledFrames.map Packet.packetNum).Perm (List.range 3) ∧
    ((Assembler.reset 3).ingestAll scrambledFrames).isComplete = true ∧
    ((Assembler.reset 3).ingestAll scrambledFrames).snapshot
      = [sampleFrame 0, sampleFrame 1, sampleFrame 2] ∧
    (([sampleFrame 2, sampleFrame 0].map Packet.packetNum).toFinset.card = 3 - 1) ∧
    ((Assembler.reset 3).ingestAll [sampleFrame 2, sampleFrame 0]).isComplete = false :=
  ⟨by decide, by decide,
    ((C4_reassembly 3 (by decide) scrambledFrames).1 (by decide)).1,
    by decide, by decide,
    (C4_reassembly 3 (by decide) [sampleFrame 2, sampleFrame 0]).2 (by decide)⟩

end TelemetryNodeSDK
